import Mathlib

/-!
Shallow embedding of the FAISS-backed RAG core (`src/faiss_db.py`, plus the
search-type dispatch of `src/services.py` and the spec's Reranking Stage).

Modelling conventions:
* FAISS float32 vectors are modelled as exact rationals (`List ℚ`).
* `faiss.normalize_L2` divides by an L2 norm (a square root), which is not a
  rational operation; it runs before every store and every search, so the
  model's vector arguments stand for the already-normalized arrays that FAISS
  actually stores and searches with.
* `faiss.IndexFlatIP` keeps the inserted vectors in insertion order and
  answers an exact top-k inner-product search; it is modelled by `ipSearch`.
* Python `Dict[str, Any]` metadata is modelled as an association list of
  `PyVal` values; `dict.get(k)` returns `None` for a missing key.
-/

/-- Python scalar values as they occur in chunk metadata dictionaries
(`Dict[str, Any]` in the source); `PyVal.none` models Python `None`. -/
inductive PyVal where
  | none : PyVal
  | str : String → PyVal
  | int : Int → PyVal
  | bool : Bool → PyVal
deriving DecidableEq

/-- A Python dict with string keys, as an association list (at most one
binding per key in any dict the code builds; reads go through `dictGet`). -/
abbrev MetaDict := List (String × PyVal)

/-- Models Python `d.get(k)`: the stored value, or `None` when the key is
absent. -/
def dictGet (d : MetaDict) (k : String) : PyVal :=
  match d.lookup k with
  | Option.none => PyVal.none
  | Option.some v => v

/-- One record of the `_metadata` list of `faiss_db.py`: the dict appended by
`add_chunk` (id, content, document_id, chunk_index, metadata). -/
structure ChunkRec where
  id : Nat
  content : String
  document_id : Option String
  chunk_index : Option Int
  metadata : MetaDict
deriving DecidableEq

/-- The in-memory state of `faiss_db.py`: the FAISS index (its stored,
normalized vectors in insertion order) and the parallel `_metadata` list. -/
structure FaissState where
  index : List (List ℚ)
  meta : List ChunkRec
deriving DecidableEq

/-- `faiss_db.add_chunk`: `chunk_id = index.ntotal`, the (normalized)
embedding is appended to the index, and a metadata record with
`id = chunk_id` and `metadata or {}` is appended to the store. Returns the
new state and the returned `chunk_id`. -/
def add_chunk (s : FaissState) (content : String) (embedding : List ℚ)
    (document_id : Option String) (chunk_index : Option Int)
    (metadata : Option MetaDict) : FaissState × Nat :=
  let chunk_id := s.index.length
  (⟨s.index ++ [embedding],
    s.meta ++ [⟨chunk_id, content, document_id, chunk_index, metadata.getD []⟩]⟩,
   chunk_id)

/-- `faiss_db.clear_all`: a fresh empty `IndexFlatIP` and an empty metadata
list. -/
def clear_all : FaissState := ⟨[], []⟩

/-- The two durable-storage writes of `faiss_db.py`. -/
inductive FlushEvent where
  | flushIndex : FlushEvent
  | flushStore : FlushEvent
deriving DecidableEq

/-- The order of the synchronous flushes at the end of `add_chunk`:
`faiss.write_index(index, INDEX_FILE)` runs first, then
`save_metadata(meta)` writes the chunk store. -/
def add_chunk_flushes : List FlushEvent :=
  [FlushEvent.flushIndex, FlushEvent.flushStore]

/-- The mutating operations of `faiss_db.py`. -/
inductive DbOp where
  | add (content : String) (embedding : List ℚ) (document_id : Option String)
      (chunk_index : Option Int) (metadata : Option MetaDict) : DbOp
  | clear : DbOp

/-- Applies one mutating operation to the state. -/
def applyOp (s : FaissState) : DbOp → FaissState
  | DbOp.add c e d i m => (add_chunk s c e d i m).1
  | DbOp.clear => clear_all

/-- A fresh process with no files on disk starts with an empty index and an
empty metadata list (`get_index` / `load_metadata`). -/
def initState : FaissState := ⟨[], []⟩

/-- Runs a sequence of add/clear operations from the initial state. -/
def runOps (ops : List DbOp) : FaissState := ops.foldl applyOp initState

/-- Inner product of two vectors (the score `IndexFlatIP` computes). -/
def dot (a b : List ℚ) : ℚ := (List.zipWith (fun x y => x * y) a b).sum

/-- The query's inner-product score against every stored vector, tagged with
the vector's ordinal: what an exact flat-index search computes. -/
def scoreAll (vecs : List (List ℚ)) (q : List ℚ) : List (Nat × ℚ) :=
  (List.range vecs.length).map (fun i => (i, dot q (vecs.getD i [])))

/-- Descending-score order on (ordinal, score) pairs. -/
def scoreGE (a b : Nat × ℚ) : Prop := b.2 ≤ a.2

instance : DecidableRel scoreGE :=
  fun a b => inferInstanceAs (Decidable (b.2 ≤ a.2))

instance : IsTotal (Nat × ℚ) scoreGE := ⟨fun a b => le_total b.2 a.2⟩

instance : IsTrans (Nat × ℚ) scoreGE := ⟨fun _ _ _ h1 h2 => le_trans h2 h1⟩

/-- Models `faiss.IndexFlatIP.search` for a single query: every stored vector
is scored by inner product, the pairs are sorted by descending score, and the
first `k` are returned. -/
def ipSearch (vecs : List (List ℚ)) (q : List ℚ) (k : Nat) : List (Nat × ℚ) :=
  (List.insertionSort scoreGE (scoreAll vecs q)).take k

/-- The candidate-producing prefix of `faiss_db.search_similar`: return `[]`
when `index.ntotal == 0`, otherwise search with `k = min(top_k, ntotal)`. -/
def indexSearch (vecs : List (List ℚ)) (q : List ℚ) (top_k : Nat) :
    List (Nat × ℚ) :=
  if vecs.length = 0 then [] else ipSearch vecs q (min top_k vecs.length)

/-- One formatted result dict of `search_similar` (the code serializes the
metadata dict with `json.dumps`; the model keeps the dict itself). -/
structure SearchResult where
  id : Nat
  content : String
  metadata : MetaDict
  document_id : Option String
  chunk_index : Option Int
  similarity : ℚ
deriving DecidableEq

/-- The per-result similarity computed by `search_similar` from the raw FAISS
score `dist`: `cosine` and the final `else` (inner_product) report `dist`
itself, `l2` reports `1 / (1 + (2 - 2 * dist))`. -/
def reportedSimilarity (search_type : String) (dist : ℚ) : ℚ :=
  if search_type = "cosine" then dist
  else if search_type = "l2" then 1 / (1 + (2 - 2 * dist))
  else dist

/-- The threshold step of the loop: with no threshold everything passes; with
a threshold, `l2` skips the check (`pass`) and the other branches drop the
result when `similarity < threshold`. -/
def keepThreshold (search_type : String) (threshold : Option ℚ)
    (similarity : ℚ) : Bool :=
  match threshold with
  | Option.none => true
  | Option.some t => if search_type = "l2" then true else decide (t ≤ similarity)

/-- Python truthiness of the `metadata_filter` argument as used by
`if metadata_filter:`—both `None` and the empty dict are falsy. -/
def truthyFilter (mf : Option MetaDict) : Option MetaDict :=
  match mf with
  | Option.none => Option.none
  | Option.some [] => Option.none
  | Option.some f => Option.some f

/-- The filter condition `all(chunk_meta_dict.get(k) == v for k, v in
metadata_filter.items())`. -/
def matchesFilter (f : MetaDict) (m : MetaDict) : Bool :=
  f.all (fun kv => dictGet m kv.1 == kv.2)

/-- The metadata-filter step of the loop: skipped when the filter is falsy,
otherwise a result is kept only if `matchesFilter` holds of its chunk's
metadata dict. -/
def keepMetadata (mf : Option MetaDict) (m : MetaDict) : Bool :=
  match truthyFilter mf with
  | Option.none => true
  | Option.some f => matchesFilter f m

/-- The result dict appended by the loop, built from the chunk record and the
computed similarity. -/
def mkResult (cm : ChunkRec) (similarity : ℚ) : SearchResult :=
  ⟨cm.id, cm.content, cm.metadata, cm.document_id, cm.chunk_index, similarity⟩

/-- One iteration of the result loop of `search_similar` for the candidate
`c = (ordinal, raw score)`: look up `meta[idx]`, compute the reported
similarity, apply the threshold and metadata filters (`continue` becomes
`Option.none`). An out-of-range ordinal yields `Option.none`; it is
unreachable because FAISS only returns ordinals below `ntotal` (the code's
`idx == -1` guard covers the analogous FAISS padding case). -/
def formatResult (meta : List ChunkRec) (search_type : String)
    (threshold : Option ℚ) (mf : Option MetaDict) (c : Nat × ℚ) :
    Option SearchResult :=
  match meta[c.1]? with
  | Option.none => Option.none
  | Option.some cm =>
    if keepThreshold search_type threshold (reportedSimilarity search_type c.2)
        && keepMetadata mf cm.metadata
    then Option.some (mkResult cm (reportedSimilarity search_type c.2))
    else Option.none

/-- `faiss_db.search_similar`: the clamped FAISS search followed by the
formatting/filtering loop. The `query` argument is the already-normalized
query vector (see the module comment). -/
def search_similar (s : FaissState) (query : List ℚ) (search_type : String)
    (top_k : Nat) (threshold : Option ℚ) (metadata_filter : Option MetaDict) :
    List SearchResult :=
  (indexSearch s.index query top_k).filterMap
    (formatResult s.meta search_type threshold metadata_filter)

/-- The three SQL similarity expressions `RAGService.similarity_search` in
`services.py` can build. -/
inductive SqlSimilarity where
  | cosineExpr : SqlSimilarity
  | l2Expr : SqlSimilarity
  | innerProductExpr : SqlSimilarity
deriving DecidableEq

/-- The search-type dispatch of `RAGService.similarity_search` in
`services.py`: the if/elif chain selects a similarity expression and the
final `else` raises `ValueError(f"Unknown search type: {search_type}")`. -/
def pgSimilarityFunc (search_type : String) : Except String SqlSimilarity :=
  if search_type = "cosine" then Except.ok SqlSimilarity.cosineExpr
  else if search_type = "l2" then Except.ok SqlSimilarity.l2Expr
  else if search_type = "inner_product" then Except.ok SqlSimilarity.innerProductExpr
  else Except.error ("Unknown search type: " ++ search_type)

/-- The two task modes of the embedding provider. -/
inductive EmbedMode where
  | query : EmbedMode
  | document : EmbedMode
deriving DecidableEq

/-- Descending order on results by similarity, for the rerank sort. -/
def simGE (a b : SearchResult) : Prop := b.similarity ≤ a.similarity

instance : DecidableRel simGE :=
  fun a b => inferInstanceAs (Decidable (b.similarity ≤ a.similarity))

instance : IsTotal SearchResult simGE :=
  ⟨fun a b => le_total b.similarity a.similarity⟩

instance : IsTrans SearchResult simGE := ⟨fun _ _ _ h1 h2 => le_trans h2 h1⟩

/-- Modelled from the spec: the Reranking Stage of §4.4 is described in the
specification but has no implementation under the source tree. Following the
spec's words: with ≤ 1 candidate the list is returned as-is with no
reranking work; otherwise a fresh normalized query embedding is computed in
query mode, each candidate's content is freshly embedded in document mode,
each candidate's similarity is replaced by the inner product of the two
fresh normalized vectors, the candidates are sorted by descending fresh
score and truncated to `top_k`; any provider failure fails the whole
operation. The provider is a parameter returning either an error or an
(already normalized) vector. -/
def rerank (embed : EmbedMode → String → Except String (List ℚ))
    (candidates : List SearchResult) (query_text : String) (top_k : Nat) :
    Except String (List SearchResult) :=
  if candidates.length ≤ 1 then Except.ok candidates
  else
    match embed EmbedMode.query query_text with
    | Except.error e => Except.error e
    | Except.ok qv =>
      match candidates.mapM (fun c =>
          (embed EmbedMode.document c.content).map (fun dv =>
            ⟨c.id, c.content, c.metadata, c.document_id, c.chunk_index,
              dot qv dv⟩)) with
      | Except.error e => Except.error e
      | Except.ok rescored =>
        Except.ok ((List.insertionSort simGE rescored).take top_k)

/-! ### Concrete states used by counterexamples and witnesses -/

/-- A unit vector of the configured dimensionality (`VECTOR_DIM = 768`):
1 in the first coordinate, 0 elsewhere. It is its own L2 normalization. -/
def e768 : List ℚ := (1 : ℚ) :: List.replicate 767 0

/-- A second 768-dimensional unit vector, orthogonal to `e768`. -/
def e768b : List ℚ := (0 : ℚ) :: (1 : ℚ) :: List.replicate 766 0

/-- The state after adding one chunk "hello" with metadata
`{"topic": "x"}` to a fresh store. -/
def cexState : FaissState :=
  (add_chunk initState "hello" e768 Option.none Option.none
    (Option.some [("topic", PyVal.str "x")])).1

/-- The state after adding one chunk "hello" with no metadata
(`metadata or {}` stores the empty dict) to a fresh store. -/
def cex8State : FaissState :=
  (add_chunk initState "hello" e768 Option.none Option.none Option.none).1

/-! ### Helper lemmas -/

/-- The lockstep invariant between the FAISS index and the metadata store:
equal sizes, and the record at position `i` carries `id = i`. -/
def StoreInv (s : FaissState) : Prop :=
  s.index.length = s.meta.length ∧
    ∀ (i : Nat) (r : ChunkRec), s.meta[i]? = Option.some r → r.id = i

lemma storeInv_initState : StoreInv initState := by
  constructor
  · rfl
  · intro i r h
    simp [initState] at h

lemma applyOp_add_meta (s : FaissState) (c : String) (e : List ℚ)
    (d : Option String) (ci : Option Int) (m : Option MetaDict) :
    (applyOp s (DbOp.add c e d ci m)).meta =
      s.meta ++ [⟨s.index.length, c, d, ci, m.getD []⟩] := rfl

lemma applyOp_add_index (s : FaissState) (c : String) (e : List ℚ)
    (d : Option String) (ci : Option Int) (m : Option MetaDict) :
    (applyOp s (DbOp.add c e d ci m)).index = s.index ++ [e] := rfl

lemma storeInv_applyOp (s : FaissState) (op : DbOp) (h : StoreInv s) :
    StoreInv (applyOp s op) := by
  obtain ⟨h1, h2⟩ := h
  cases op with
  | clear =>
    constructor
    · rfl
    · intro i r hr
      simp [applyOp, clear_all] at hr
  | add c e d ci m =>
    constructor
    · rw [applyOp_add_meta, applyOp_add_index]
      simp [h1]
    · intro i r hr
      rw [applyOp_add_meta] at hr
      rcases Nat.lt_trichotomy i s.meta.length with hlt | heq | hgt
      · rw [List.getElem?_append_left hlt] at hr
        exact h2 i r hr
      · subst heq
        rw [List.getElem?_concat_length] at hr
        cases hr
        simpa using h1
      · have hnone : (s.meta ++ [(⟨s.index.length, c, d, ci, m.getD []⟩ : ChunkRec)])[i]? =
            Option.none := List.getElem?_eq_none (by simp; omega)
        rw [hnone] at hr
        exact Option.noConfusion hr

lemma storeInv_foldl (ops : List DbOp) :
    ∀ s : FaissState, StoreInv s → StoreInv (ops.foldl applyOp s) := by
  induction ops with
  | nil => intro s h; exact h
  | cons op rest ih => intro s h; exact ih _ (storeInv_applyOp s op h)

lemma mem_ipSearch {vecs : List (List ℚ)} {q : List ℚ} {k : Nat}
    {p : Nat × ℚ} (hp : p ∈ ipSearch vecs q k) :
    p.1 < vecs.length ∧ p.2 = dot q (vecs.getD p.1 []) := by
  have h1 : p ∈ List.insertionSort scoreGE (scoreAll vecs q) :=
    List.mem_of_mem_take hp
  rw [List.mem_insertionSort] at h1
  simp only [scoreAll, List.mem_map, List.mem_range] at h1
  obtain ⟨i, hi, hip⟩ := h1
  rw [← hip]
  exact ⟨hi, rfl⟩

lemma length_ipSearch (vecs : List (List ℚ)) (q : List ℚ) (k : Nat) :
    (ipSearch vecs q k).length = min k vecs.length := by
  simp [ipSearch, scoreAll]

lemma sorted_ipSearch (vecs : List (List ℚ)) (q : List ℚ) (k : Nat) :
    List.Sorted scoreGE (ipSearch vecs q k) :=
  (List.sorted_insertionSort scoreGE (scoreAll vecs q)).sublist
    (List.take_sublist k _)

lemma mem_indexSearch {vecs : List (List ℚ)} {q : List ℚ} {top_k : Nat}
    {p : Nat × ℚ} (hp : p ∈ indexSearch vecs q top_k) :
    p.1 < vecs.length ∧ p.2 = dot q (vecs.getD p.1 []) := by
  unfold indexSearch at hp
  split at hp
  · simp at hp
  · exact mem_ipSearch hp

lemma formatResult_eq_some {meta : List ChunkRec} {st : String}
    {th : Option ℚ} {mf : Option MetaDict} {c : Nat × ℚ} {r : SearchResult}
    (h : formatResult meta st th mf c = Option.some r) :
    ∃ cm, meta[c.1]? = Option.some cm ∧
      keepThreshold st th (reportedSimilarity st c.2) = true ∧
      keepMetadata mf cm.metadata = true ∧
      r = mkResult cm (reportedSimilarity st c.2) := by
  unfold formatResult at h
  split at h
  · exact Option.noConfusion h
  · rename_i cm hm
    split at h
    · rename_i hcond
      rw [Bool.and_eq_true] at hcond
      exact ⟨cm, hm, hcond.1, hcond.2, (Option.some.inj h).symm⟩
    · exact Option.noConfusion h

lemma formatResult_threshold (meta : List ChunkRec) (st : String) (t : ℚ)
    (mf : Option MetaDict) (hst : st ≠ "l2") (c : Nat × ℚ) :
    formatResult meta st (Option.some t) mf c =
      (formatResult meta st Option.none mf c).filter
        (fun r => decide (t ≤ r.similarity)) := by
  unfold formatResult
  cases hm : meta[c.1]? with
  | none => rfl
  | some cm =>
    cases hkm : keepMetadata mf cm.metadata <;>
      cases hkt : decide (t ≤ reportedSimilarity st c.2) <;>
        simp [keepThreshold, hst, hkm, hkt, mkResult, Option.filter]

lemma search_similar_threshold (s : FaissState) (q : List ℚ) (st : String)
    (k : Nat) (mf : Option MetaDict) (t : ℚ) (hst : st ≠ "l2") :
    search_similar s q st k (Option.some t) mf =
      (search_similar s q st k Option.none mf).filter
        (fun r => decide (t ≤ r.similarity)) := by
  unfold search_similar
  rw [List.filter_filterMap]
  exact List.filterMap_congr
    (fun c _ => formatResult_threshold s.meta st t mf hst c)

lemma formatResult_mfilter (meta : List ChunkRec) (st : String)
    (th : Option ℚ) (f : MetaDict) (hf : f ≠ []) (c : Nat × ℚ) :
    formatResult meta st th (Option.some f) c =
      (formatResult meta st th Option.none c).filter
        (fun r => matchesFilter f r.metadata) := by
  have hkm : ∀ m, keepMetadata (Option.some f) m = matchesFilter f m := by
    intro m
    cases f with
    | nil => exact absurd rfl hf
    | cons kv rest => rfl
  unfold formatResult
  cases hm : meta[c.1]? with
  | none => rfl
  | some cm =>
    cases hkt : keepThreshold st th (reportedSimilarity st c.2) <;>
      cases hmf2 : matchesFilter f cm.metadata <;>
        simp [hkm, hkt, hmf2, mkResult, Option.filter, keepMetadata,
          truthyFilter]

lemma search_similar_mfilter (s : FaissState) (q : List ℚ) (st : String)
    (k : Nat) (th : Option ℚ) (f : MetaDict) (hf : f ≠ []) :
    search_similar s q st k th (Option.some f) =
      (search_similar s q st k th Option.none).filter
        (fun r => matchesFilter f r.metadata) := by
  unfold search_similar
  rw [List.filter_filterMap]
  exact List.filterMap_congr
    (fun c _ => formatResult_mfilter s.meta st th f hf c)

lemma search_similar_empty_filter (s : FaissState) (q : List ℚ) (st : String)
    (k : Nat) (th : Option ℚ) :
    search_similar s q st k th (Option.some []) =
      search_similar s q st k th Option.none := rfl

lemma formatResult_unknown (meta : List ChunkRec) (st : String)
    (th : Option ℚ) (mf : Option MetaDict) (h1 : st ≠ "cosine")
    (h2 : st ≠ "l2") (c : Nat × ℚ) :
    formatResult meta st th mf c = formatResult meta "inner_product" th mf c := by
  unfold formatResult
  cases hm : meta[c.1]? with
  | none => rfl
  | some cm =>
    have hsim : reportedSimilarity st c.2 = reportedSimilarity "inner_product" c.2 := by
      simp [reportedSimilarity, h1, h2]
    have hkt : ∀ sim, keepThreshold st th sim = keepThreshold "inner_product" th sim := by
      intro sim
      cases th with
      | none => rfl
      | some t => simp [keepThreshold, h2]
    rw [hsim, hkt]

lemma search_similar_unknown (s : FaissState) (q : List ℚ) (st : String)
    (k : Nat) (th : Option ℚ) (mf : Option MetaDict) (h1 : st ≠ "cosine")
    (h2 : st ≠ "l2") :
    search_similar s q st k th mf =
      search_similar s q "inner_product" k th mf := by
  unfold search_similar
  exact List.filterMap_congr
    (fun c _ => formatResult_unknown s.meta st th mf h1 h2 c)

lemma search_similar_l2_threshold (s : FaissState) (q : List ℚ) (k : Nat)
    (mf : Option MetaDict) (t : ℚ) :
    search_similar s q "l2" k (Option.some t) mf =
      search_similar s q "l2" k Option.none mf := by
  unfold search_similar
  refine List.filterMap_congr (fun c _ => ?_)
  unfold formatResult
  cases hm : s.meta[c.1]? with
  | none => rfl
  | some cm => simp [keepThreshold]

/-! ### Concrete evaluations (for counterexamples and witnesses) -/

lemma zipWith_mul_rep (n : Nat) :
    List.zipWith (fun x y => x * y) (List.replicate n (0:ℚ))
      (List.replicate n (0:ℚ)) = List.replicate n 0 := by
  induction n with
  | zero => rfl
  | succ n ih => simp [List.replicate_succ, ih]

lemma dot_e768_self : dot e768 e768 = 1 := by
  show (List.zipWith (fun x y => x * y) ((1:ℚ) :: List.replicate 767 0)
    ((1:ℚ) :: List.replicate 767 0)).sum = 1
  rw [List.zipWith_cons_cons, zipWith_mul_rep, List.sum_cons,
    List.sum_replicate]
  simp

lemma scoreAll_cex : scoreAll [e768] e768 = [(0, 1)] := by
  rw [show scoreAll [e768] e768 = [(0, dot e768 e768)] from rfl, dot_e768_self]

lemma indexSearch_cex : indexSearch [e768] e768 5 = [(0, 1)] := by
  rw [show indexSearch [e768] e768 5 = ipSearch [e768] e768 1 from rfl]
  unfold ipSearch
  rw [scoreAll_cex]
  rfl

lemma search_dot_cex :
    search_similar cexState e768 "dot" 5 Option.none Option.none =
      [⟨0, "hello", [("topic", PyVal.str "x")], Option.none, Option.none, 1⟩] := by
  unfold search_similar
  rw [show cexState.index = [e768] from rfl, indexSearch_cex]
  rfl

section
attribute [local semireducible] Rat.add Rat.mul Rat.sub Rat.inv

lemma search_l2_cex :
    search_similar cexState e768 "l2" 5 Option.none Option.none =
      [⟨0, "hello", [("topic", PyVal.str "x")], Option.none, Option.none, 1⟩] := by
  unfold search_similar
  rw [show cexState.index = [e768] from rfl, indexSearch_cex]
  decide

end

lemma search_cosine_th0_cex :
    search_similar cexState e768 "cosine" 5 (Option.some 0) Option.none =
      [⟨0, "hello", [("topic", PyVal.str "x")], Option.none, Option.none, 1⟩] := by
  unfold search_similar
  rw [show cexState.index = [e768] from rfl, indexSearch_cex]
  decide

lemma search_cosine_cex8 :
    search_similar cex8State e768 "cosine" 5 Option.none Option.none =
      [⟨0, "hello", [], Option.none, Option.none, 1⟩] := by
  unfold search_similar
  rw [show cex8State.index = [e768] from rfl, indexSearch_cex]
  rfl

lemma search_cex8_none_filter :
    search_similar cex8State e768 "cosine" 5 Option.none
        (Option.some [("topic", PyVal.none)]) =
      [⟨0, "hello", [], Option.none, Option.none, 1⟩] := by
  unfold search_similar
  rw [show cex8State.index = [e768] from rfl, indexSearch_cex]
  rfl

/-! ### Claims -/

/-- C1 counterexample: the claim says a `similarity_search` whose
`search_type` is not one of "cosine", "l2", "inner_product" fails with
`InvalidArgument` and returns no result list. The FAISS-backed
`search_similar` has no such validation: called with `search_type = "dot"`
on a one-chunk store it returns a non-empty result list (scored as
inner_product by the final `else` branch). -/
theorem C1_counterexample :
    search_similar cexState e768 "dot" 5 Option.none Option.none =
      [⟨0, "hello", [("topic", PyVal.str "x")], Option.none, Option.none, 1⟩] :=
  search_dot_cex

/-- C1 amended: only the pgvector-backed `RAGService.similarity_search`
(`services.py`) rejects an unknown `search_type`, raising
`ValueError(f"Unknown search type: ...")`; the FAISS-backed
`search_similar` treats every `search_type` other than "cosine" and "l2"
exactly like "inner_product" and returns a result list normally. -/
theorem C1_unknown_search_type (st : String) (h1 : st ≠ "cosine")
    (h2 : st ≠ "l2") (h3 : st ≠ "inner_product") :
    pgSimilarityFunc st = Except.error ("Unknown search type: " ++ st) ∧
    ∀ (s : FaissState) (q : List ℚ) (k : Nat) (th : Option ℚ)
      (mf : Option MetaDict),
      search_similar s q st k th mf =
        search_similar s q "inner_product" k th mf := by
  constructor
  · unfold pgSimilarityFunc
    rw [if_neg h1, if_neg h2, if_neg h3]
  · intro s q k th mf
    exact search_similar_unknown s q st k th mf h1 h2

/-- C1 witness: the amended claim at the concrete unknown search type
"dot". -/
theorem C1_unknown_search_type_witness :
    pgSimilarityFunc "dot" = Except.error ("Unknown search type: " ++ "dot") ∧
    search_similar cexState e768 "dot" 5 Option.none Option.none =
      search_similar cexState e768 "inner_product" 5 Option.none Option.none := by
  have h := C1_unknown_search_type "dot" (by decide) (by decide) (by decide)
  exact ⟨h.1, h.2 cexState e768 5 Option.none Option.none⟩

/-- C2: the claim requires the chunk store's metadata to be flushed to disk
before (or atomically with) the index on every add. The code does the
opposite: `add_chunk` runs `faiss.write_index` (index flush) strictly before
`save_metadata` (store flush), so the on-disk index can be ahead of the
on-disk store if the process dies between the two writes. -/
theorem C2_flush_order_violation :
    add_chunk_flushes = [FlushEvent.flushIndex, FlushEvent.flushStore] ∧
    List.indexOf FlushEvent.flushIndex add_chunk_flushes <
      List.indexOf FlushEvent.flushStore add_chunk_flushes := by
  constructor
  · rfl
  · decide

/-- C3: rerank with at most one candidate returns the candidate list as-is,
wrapped in success, for every embedding provider — in particular for a
provider that always fails, so no provider call can have been consulted. -/
theorem C3_rerank_single (embed : EmbedMode → String → Except String (List ℚ))
    (candidates : List SearchResult) (query_text : String) (top_k : Nat)
    (h : candidates.length ≤ 1) :
    rerank embed candidates query_text top_k = Except.ok candidates := by
  unfold rerank
  rw [if_pos h]

/-- C3 witness: a single candidate is returned unchanged even when the
provider always errors. -/
theorem C3_rerank_single_witness :
    rerank (fun _ _ => Except.error "provider down")
        [⟨0, "hello", [], Option.none, Option.none, 1⟩] "q" 3 =
      Except.ok [⟨0, "hello", [], Option.none, Option.none, 1⟩] :=
  C3_rerank_single (fun _ _ => Except.error "provider down")
    [⟨0, "hello", [], Option.none, Option.none, 1⟩] "q" 3 (by decide)

/-- C4: after any finite sequence of add and clear operations from a fresh
store, the index and the metadata store have the same size and the record
at every position i carries id = i. -/
theorem C4_lockstep (ops : List DbOp) :
    (runOps ops).index.length = (runOps ops).meta.length ∧
    ∀ (i : Nat) (r : ChunkRec),
      (runOps ops).meta[i]? = Option.some r → r.id = i :=
  storeInv_foldl ops initState storeInv_initState

/-- A concrete operation history: add, clear, then two more adds. -/
def demoOps : List DbOp :=
  [DbOp.add "a" e768 Option.none Option.none Option.none,
   DbOp.clear,
   DbOp.add "b" e768 (Option.some "doc") (Option.some 0) Option.none,
   DbOp.add "c" e768 Option.none Option.none
     (Option.some [("topic", PyVal.str "x")])]

/-- C4 witness: a concrete add/clear/add/add history; the record at
position 1 exists and carries id 1. -/
theorem C4_lockstep_witness :
    (runOps demoOps).index.length = (runOps demoOps).meta.length ∧
    ∃ r : ChunkRec, (runOps demoOps).meta[1]? = Option.some r ∧ r.id = 1 := by
  refine ⟨(C4_lockstep demoOps).1,
    ⟨⟨1, "c", Option.none, Option.none, [("topic", PyVal.str "x")]⟩, ?_, ?_⟩⟩
  · decide
  · exact (C4_lockstep demoOps).2 1 _ (by decide)

/-- C5: the clamped index search returns at most min(top_k, size) entries,
sorted by descending inner-product score (each returned score is the inner
product of the query with the stored vector at the returned ordinal), and
an empty index yields the empty list rather than an error. -/
theorem C5_search_contract (vecs : List (List ℚ)) (q : List ℚ) (top_k : Nat) :
    (indexSearch vecs q top_k).length ≤ min top_k vecs.length ∧
    List.Sorted scoreGE (indexSearch vecs q top_k) ∧
    (∀ p, p ∈ indexSearch vecs q top_k →
      p.1 < vecs.length ∧ p.2 = dot q (vecs.getD p.1 [])) ∧
    (vecs = [] → indexSearch vecs q top_k = []) := by
  refine ⟨?_, ?_, ?_, ?_⟩
  · unfold indexSearch
    split
    · simp
    · rw [length_ipSearch]
      omega
  · unfold indexSearch
    split
    · exact List.sorted_nil
    · exact sorted_ipSearch vecs q (min top_k vecs.length)
  · intro p hp
    exact mem_indexSearch hp
  · intro h
    subst h
    rfl

/-- C5 witness: on a one-vector index the contract holds concretely, and on
the empty index the search returns the empty list. -/
theorem C5_search_contract_witness :
    (indexSearch [e768] e768 5).length ≤ min 5 1 ∧
    List.Sorted scoreGE (indexSearch [e768] e768 5) ∧
    ((0, (1:ℚ)).1 < 1 ∧ (0, (1:ℚ)).2 = dot e768 (List.getD [e768] 0 [])) ∧
    indexSearch ([] : List (List ℚ)) e768 5 = [] := by
  obtain ⟨h1, h2, h3, _⟩ := C5_search_contract [e768] e768 5
  refine ⟨h1, h2, h3 (0, 1) ?_, (C5_search_contract [] e768 5).2.2.2 rfl⟩
  rw [indexSearch_cex]
  exact List.mem_singleton_self _

/-- C6: under search_type "l2" every returned result's reported similarity
is 1 / (1 + (2 - 2 * s)) for s the raw inner-product score of the
(normalized) query against some stored (normalized) vector. -/
theorem C6_l2_similarity (s : FaissState) (q : List ℚ) (top_k : Nat)
    (th : Option ℚ) (mf : Option MetaDict) (r : SearchResult)
    (hr : r ∈ search_similar s q "l2" top_k th mf) :
    ∃ i, i < s.index.length ∧
      r.similarity = 1 / (1 + (2 - 2 * dot q (s.index.getD i []))) := by
  unfold search_similar at hr
  rw [List.mem_filterMap] at hr
  obtain ⟨c, hc, hfmt⟩ := hr
  obtain ⟨cm, _, _, _, hr_eq⟩ := formatResult_eq_some hfmt
  obtain ⟨hlt, hdot⟩ := mem_indexSearch hc
  refine ⟨c.1, hlt, ?_⟩
  have hsim : reportedSimilarity "l2" c.2 = 1 / (1 + (2 - 2 * c.2)) := by
    simp [reportedSimilarity]
  rw [hr_eq]
  show reportedSimilarity "l2" c.2 = _
  rw [hsim, hdot]

/-- C6 witness: the l2 search on the one-chunk store returns the chunk with
similarity 1, which equals the formula at the raw score 1. -/
theorem C6_l2_similarity_witness :
    ∃ i, i < cexState.index.length ∧
      (⟨0, "hello", [("topic", PyVal.str "x")], Option.none, Option.none,
        (1:ℚ)⟩ : SearchResult).similarity =
        1 / (1 + (2 - 2 * dot e768 (cexState.index.getD i []))) :=
  C6_l2_similarity cexState e768 5 Option.none Option.none _
    (by rw [search_l2_cex]; exact List.mem_singleton_self _)

/-- C7: with a threshold set, every result returned under "cosine" or
"inner_product" has reported similarity at least the threshold, and under
"l2" the threshold has no effect at all on the result list. -/
theorem C7_threshold_behavior (s : FaissState) (q : List ℚ) (top_k : Nat)
    (mf : Option MetaDict) (t : ℚ) :
    (∀ st, st = "cosine" ∨ st = "inner_product" →
      ∀ r ∈ search_similar s q st top_k (Option.some t) mf,
        t ≤ r.similarity) ∧
    search_similar s q "l2" top_k (Option.some t) mf =
      search_similar s q "l2" top_k Option.none mf := by
  constructor
  · intro st hst r hr
    have hne : st ≠ "l2" := by rcases hst with h | h <;> subst h <;> decide
    rw [search_similar_threshold s q st top_k mf t hne, List.mem_filter] at hr
    exact of_decide_eq_true hr.2
  · exact search_similar_l2_threshold s q top_k mf t

/-- C7 witness: with threshold 0 the returned chunk has similarity ≥ 0
under "cosine", and the "l2" search with threshold 0 equals the "l2"
search without a threshold on the one-chunk store. -/
theorem C7_threshold_behavior_witness :
    ((0:ℚ) ≤ (⟨0, "hello", [("topic", PyVal.str "x")], Option.none,
      Option.none, (1:ℚ)⟩ : SearchResult).similarity) ∧
    search_similar cexState e768 "l2" 5 (Option.some 0) Option.none =
      search_similar cexState e768 "l2" 5 Option.none Option.none := by
  have h := C7_threshold_behavior cexState e768 5 Option.none 0
  refine ⟨h.1 "cosine" (Or.inl rfl) _ ?_, h.2⟩
  rw [search_cosine_th0_cex]
  exact List.mem_singleton_self _

/-- C8 counterexample: the claim says a chunk missing a filter key is
always excluded. On a store whose only chunk has the empty metadata dict
(it lacks the key "topic"), a search filtered by {"topic": None} keeps the
chunk, because `dict.get("topic")` reads the missing key as None, which
compares equal to the filter value. -/
theorem C8_missing_key_counterexample :
    search_similar cex8State e768 "cosine" 5 Option.none
        (Option.some [("topic", PyVal.none)]) =
      [⟨0, "hello", [], Option.none, Option.none, 1⟩] ∧
    List.lookup "topic" ([] : MetaDict) = Option.none :=
  ⟨search_cex8_none_filter, rfl⟩

/-- C8 amended: under a non-empty metadata filter, the result list equals
the unfiltered result list restricted to chunks where, for every filter
entry (k, v), the chunk metadata's value for k — read as None when k is
absent — equals v; so a chunk missing a filter key is excluded unless that
entry's value is None. An empty filter returns exactly the no-filter
results. -/
theorem C8_metadata_filter_amended :
    (∀ (s : FaissState) (q : List ℚ) (st : String) (k : Nat) (th : Option ℚ)
        (f : MetaDict), f ≠ [] →
      search_similar s q st k th (Option.some f) =
        (search_similar s q st k th Option.none).filter
          (fun r => matchesFilter f r.metadata)) ∧
    (∀ (s : FaissState) (q : List ℚ) (st : String) (k : Nat) (th : Option ℚ),
      search_similar s q st k th (Option.some []) =
        search_similar s q st k th Option.none) :=
  ⟨fun s q st k th f hf => search_similar_mfilter s q st k th f hf,
   fun s q st k th => search_similar_empty_filter s q st k th⟩

/-- C8 witness: the amended claim at a concrete non-empty filter and at the
empty filter on the one-chunk store. -/
theorem C8_metadata_filter_amended_witness :
    (search_similar cexState e768 "cosine" 5 Option.none
        (Option.some [("topic", PyVal.str "x")]) =
      (search_similar cexState e768 "cosine" 5 Option.none
          Option.none).filter
        (fun r => matchesFilter [("topic", PyVal.str "x")] r.metadata)) ∧
    (search_similar cexState e768 "cosine" 5 Option.none (Option.some []) =
      search_similar cexState e768 "cosine" 5 Option.none Option.none) :=
  ⟨C8_metadata_filter_amended.1 cexState e768 "cosine" 5 Option.none
      [("topic", PyVal.str "x")] (by decide),
   C8_metadata_filter_amended.2 cexState e768 "cosine" 5 Option.none⟩

/-- C9: for "cosine" and "inner_product", raising the threshold never
increases the number of results, all else fixed. -/
theorem C9_threshold_monotone (s : FaissState) (q : List ℚ) (top_k : Nat)
    (mf : Option MetaDict) (st : String) (t1 t2 : ℚ)
    (hst : st = "cosine" ∨ st = "inner_product") (h12 : t1 ≤ t2) :
    (search_similar s q st top_k (Option.some t2) mf).length ≤
      (search_similar s q st top_k (Option.some t1) mf).length := by
  have hne : st ≠ "l2" := by rcases hst with h | h <;> subst h <;> decide
  rw [search_similar_threshold s q st top_k mf t1 hne,
    search_similar_threshold s q st top_k mf t2 hne]
  exact (List.monotone_filter_right _
    (fun r hr => decide_eq_true (le_trans h12 (of_decide_eq_true hr)))).length_le

/-- C9 witness: thresholds 0 ≤ 1 on the one-chunk store under "cosine". -/
theorem C9_threshold_monotone_witness :
    (search_similar cexState e768 "cosine" 5 (Option.some 1)
        Option.none).length ≤
      (search_similar cexState e768 "cosine" 5 (Option.some 0)
        Option.none).length :=
  C9_threshold_monotone cexState e768 5 Option.none "cosine" 0 1
    (Or.inl rfl) zero_le_one

/-- C10: when the metadata filter maps a key to None, a chunk whose
metadata lacks that key entirely still matches the filter entry (the
missing key reads as None) and is kept in the results. -/
theorem C10_none_filter_keeps_missing (s : FaissState) (q : List ℚ)
    (st : String) (top_k : Nat) (th : Option ℚ) (k0 : String)
    (r : SearchResult)
    (hr : r ∈ search_similar s q st top_k th Option.none)
    (hmiss : List.lookup k0 r.metadata = Option.none) :
    r ∈ search_similar s q st top_k th (Option.some [(k0, PyVal.none)]) := by
  rw [search_similar_mfilter s q st top_k th [(k0, PyVal.none)] (by simp)]
  rw [List.mem_filter]
  refine ⟨hr, ?_⟩
  simp [matchesFilter, dictGet, hmiss]

/-- C10 witness: the chunk with empty metadata is kept under the filter
{"k": None}. -/
theorem C10_none_filter_keeps_missing_witness :
    (⟨0, "hello", [], Option.none, Option.none, (1:ℚ)⟩ : SearchResult) ∈
      search_similar cex8State e768 "cosine" 5 Option.none
        (Option.some [("k", PyVal.none)]) :=
  C10_none_filter_keeps_missing cex8State e768 "cosine" 5 Option.none "k" _
    (by rw [search_cosine_cex8]; exact List.mem_singleton_self _) rfl
